import Mathlib

/-!
Verification of the Redux task-list checkpoint (src/REDUXCHECPOINT.jsx).

The file embeds the `tasks` slice of the Redux store, the derived filtered
view of `ListTask`, the `AddTask` submit guard, and the localStorage
rehydration logic as executable Lean definitions, and proves the behavioural
claims about them.
-/

set_option autoImplicit false

namespace ReduxCheckpoint

/-- A task record, as built by `addTask.prepare`:
`{ id: nanoid(), description: description.trim(), isDone: false }`. -/
structure Task where
  id : String
  description : String
  isDone : Bool
  deriving DecidableEq, Repr

/-- The `tasks` slice state: `{ items, filter }` (source lines 19-22). -/
structure TasksState where
  items : List Task
  filter : String
  deriving DecidableEq, Repr

/-- The whitespace class removed by JavaScript `String.prototype.trim`
(restricted to the ASCII whitespace characters). -/
def isJsWhitespace (c : Char) : Bool :=
  c == ' ' || c == '\t' || c == '\n' || c == '\r' || c == '\x0b' || c == '\x0c'

/-- JavaScript `s.trim()`: strip leading and trailing whitespace. -/
def jsTrim (s : String) : String :=
  ⟨((s.data.dropWhile isJsWhitespace).reverse.dropWhile isJsWhitespace).reverse⟩

/-- `addTask.prepare(description)` (source lines 28-35): builds the payload
`{ id: nanoid(), description: description.trim(), isDone: false }`.  The
`nanoid()` call is external; its result is passed in as `freshId`. -/
def mkTask (freshId description : String) : Task :=
  { id := freshId, description := jsTrim description, isDone := false }

/-- `addTask.reducer` (source lines 25-27): `state.items.unshift(action.payload)` —
unconditionally prepends the prepared payload. -/
def addTask (s : TasksState) (freshId description : String) : TasksState :=
  { s with items := mkTask freshId description :: s.items }

/-- The body of `toggleDone` (source lines 38-41) on the items list:
`find` the first task whose id matches and flip its `isDone`; leave the list
unchanged when there is no match. -/
def toggleDoneItems (i : String) : List Task → List Task
  | [] => []
  | t :: ts =>
    if t.id = i then { t with isDone := !t.isDone } :: ts
    else t :: toggleDoneItems i ts

/-- `toggleDone(state, action)` (source lines 38-41). -/
def toggleDone (s : TasksState) (i : String) : TasksState :=
  { s with items := toggleDoneItems i s.items }

/-- The body of `editTask` (source lines 42-46) on the items list: `find` the
first task whose id matches; if found and `description.trim()` is truthy
(a non-empty string), replace its description with the trimmed text. -/
def editTaskItems (i d : String) : List Task → List Task
  | [] => []
  | t :: ts =>
    if t.id = i then
      (if jsTrim d ≠ "" then { t with description := jsTrim d } else t) :: ts
    else t :: editTaskItems i d ts

/-- `editTask(state, action)` (source lines 42-46). -/
def editTask (s : TasksState) (i d : String) : TasksState :=
  { s with items := editTaskItems i d s.items }

/-- `setFilter(state, action)` (source lines 47-49): `state.filter = action.payload`,
with no validation of the payload. -/
def setFilter (s : TasksState) (v : String) : TasksState :=
  { s with filter := v }

/-- `clearAll(state)` (source lines 50-52): `state.items = []`. -/
def clearAll (s : TasksState) : TasksState :=
  { s with items := [] }

/-- The `onSubmit` handler of the `AddTask` component (source lines 89-94): it
returns without dispatching when `text.trim().length === 0`, and otherwise
dispatches `addTask(text)` (with a fresh `nanoid()` for the payload id). -/
def submitAddTask (s : TasksState) (text freshId : String) : TasksState :=
  if (jsTrim text).length = 0 then s else addTask s freshId text

/-- The derived view of `ListTask` (source lines 191-195):
`filter === "done"` keeps the done tasks, `filter === "not"` the not-done
tasks, and anything else returns `items` itself. -/
def filteredItems (items : List Task) (filter : String) : List Task :=
  if filter = "done" then items.filter (fun t => t.isDone)
  else if filter = "not" then items.filter (fun t => !t.isDone)
  else items

/-- The `tasks` part of the persisted blob, as accessed by
`persisted.tasks?.items` and `persisted.tasks?.filter`: either field may be
missing. -/
structure PersistedTasks where
  items : Option (List Task)
  filter : Option String
  deriving DecidableEq, Repr

/-- The parsed persisted blob `{ tasks: ... }` (source line 67 writes the whole
store state, whose single slice key is `tasks`); the `tasks` key may be
missing from a foreign blob. -/
structure PersistedBlob where
  tasks : Option PersistedTasks
  deriving DecidableEq, Repr

/-- Outcome of `localStorage.getItem("redux_todo_state")` (source line 10):
the access may throw, return `null`, or return a string. -/
inductive StorageRead where
  | failure
  | missing
  | stored (raw : String)
  deriving DecidableEq, Repr

/-- The `persisted` IIFE (source lines 8-15): on a thrown storage access the
catch yields `undefined`; `raw ? JSON.parse(raw) : undefined` yields
`undefined` when `raw` is `null` or the empty string (both falsy); a
`JSON.parse` failure is caught by the same `try` and yields `undefined`.
`JSON.parse` itself is external, passed in as `parse`, with `none` standing
for a parse failure. -/
def persistedFrom (read : StorageRead) (parse : String → Option PersistedBlob) :
    Option PersistedBlob :=
  match read with
  | .failure => none
  | .missing => none
  | .stored raw => if raw = "" then none else parse raw

/-- The `initialState` of the slice (source lines 19-22):
`items: (persisted && persisted.tasks?.items) || []` and
`filter: (persisted && persisted.tasks?.filter) || "all"`.  A present JSON
array is always truthy, so a present `items` list is kept as is; among
strings exactly `""` is falsy, so a present `""` filter falls back to
`"all"`.

Caution: this expression is not the whole startup path.  `configureStore`
(source lines 58-61) also receives the parsed blob as `preloadedState`, and
`combineReducers` hands `persisted.tasks` to the slice reducer verbatim
whenever that key is defined, in which case this `initialState` is bypassed —
see `startupTasksState`.  The two paths agree exactly when `persisted` has no
defined `tasks` key (this value is then the empty default) or when the blob
carries both fields with a truthy filter. -/
def initialStateFrom (persisted : Option PersistedBlob) : TasksState :=
  { items := ((persisted.bind PersistedBlob.tasks).bind PersistedTasks.items).getD []
    filter :=
      match (persisted.bind PersistedBlob.tasks).bind PersistedTasks.filter with
      | some f => if f = "" then "all" else f
      | none => "all" }

/-- The persistence write (source lines 64-69) serializes the whole store
state `{ tasks: { items, filter } }` with `JSON.stringify`; this is the
structure `JSON.parse` recovers from the written text at the next startup
(`stringify` and `parse` are mutually inverse runtime primitives on plain
data). -/
def serializeState (s : TasksState) : PersistedBlob :=
  { tasks := some { items := some s.items, filter := some s.filter } }

/-- The `tasks` slice state as the store actually holds it after startup.
`configureStore` (source lines 58-61) passes the parsed blob as
`preloadedState`; on the init action `combineReducers` computes
`reducer(preloadedState.tasks, INIT)`, and the slice reducer returns an
unrecognised-action state unchanged, so a defined `persisted.tasks` object is
installed verbatim, with whatever fields it has or lacks (left summand, the
raw blob object).  Only when `persisted` is `undefined` or has no defined
`tasks` key does the slice reducer receive `undefined` and fall back to its
`initialState` (right summand). -/
def startupTasksState (persisted : Option PersistedBlob) :
    PersistedTasks ⊕ TasksState :=
  match persisted.bind PersistedBlob.tasks with
  | some t => Sum.inl t
  | none => Sum.inr (initialStateFrom persisted)

/-- The filter values the UI ever dispatches (source lines 238-240) and the
enumeration documented on source lines 21 and 48. -/
def validFilter (f : String) : Prop :=
  f = "all" ∨ f = "done" ∨ f = "not"

instance (f : String) : Decidable (validFilter f) := by
  unfold validFilter; infer_instance

/-- The store-state invariant of spec §3: ids are pairwise distinct and the
filter is one of the three enumerated values. -/
def Invariant (s : TasksState) : Prop :=
  (s.items.map Task.id).Nodup ∧ validFilter s.filter

instance (s : TasksState) : Decidable (Invariant s) := by
  unfold Invariant; infer_instance

/-- A concrete state used to instantiate the hypotheses of the theorems
below on examples. -/
def demoState : TasksState :=
  { items := [{ id := "a", description := "buy milk", isDone := false },
              { id := "b", description := "call bob", isDone := true }]
    filter := "all" }

/-! ### Helper lemmas on the list bodies of the reducers -/

theorem toggleDoneItems_of_not_found (i : String) (l : List Task)
    (h : ∀ t ∈ l, t.id ≠ i) : toggleDoneItems i l = l := by
  induction l with
  | nil => rfl
  | cons t ts ih =>
    rw [toggleDoneItems, if_neg (h t (List.mem_cons_self t ts)),
      ih (fun u hu => h u (List.mem_cons_of_mem t hu))]

theorem toggleDoneItems_involutive (i : String) (l : List Task) :
    toggleDoneItems i (toggleDoneItems i l) = l := by
  induction l with
  | nil => rfl
  | cons t ts ih =>
    obtain ⟨tid, tdesc, tdone⟩ := t
    by_cases h : tid = i
    · simp [toggleDoneItems, h]
    · simp [toggleDoneItems, h, ih]

theorem toggleDoneItems_map_id (i : String) (l : List Task) :
    (toggleDoneItems i l).map Task.id = l.map Task.id := by
  induction l with
  | nil => rfl
  | cons t ts ih =>
    by_cases h : t.id = i
    · simp [toggleDoneItems, h]
    · simp [toggleDoneItems, h, ih]

theorem toggleDoneItems_map_id_description (i : String) (l : List Task) :
    (toggleDoneItems i l).map (fun t => (t.id, t.description))
      = l.map (fun t => (t.id, t.description)) := by
  induction l with
  | nil => rfl
  | cons t ts ih =>
    by_cases h : t.id = i
    · simp [toggleDoneItems, h]
    · simp [toggleDoneItems, h, ih]

theorem map_if_id_eq_self (i : String) (g : Task → Task) (l : List Task)
    (h : ∀ t ∈ l, t.id ≠ i) :
    l.map (fun t => if t.id = i then g t else t) = l := by
  induction l with
  | nil => rfl
  | cons t ts ih =>
    rw [List.map_cons, if_neg (h t (List.mem_cons_self t ts)),
      ih (fun u hu => h u (List.mem_cons_of_mem t hu))]

theorem nodup_head_not_found {t : Task} {ts : List Task}
    (h : ((t :: ts).map Task.id).Nodup) : ∀ u ∈ ts, u.id ≠ t.id := by
  intro u hu he
  rw [List.map_cons, List.nodup_cons] at h
  exact h.1 (he ▸ List.mem_map_of_mem Task.id hu)

theorem toggleDoneItems_eq_map (i : String) (l : List Task)
    (h : (l.map Task.id).Nodup) :
    toggleDoneItems i l
      = l.map (fun t => if t.id = i then { t with isDone := !t.isDone } else t) := by
  induction l with
  | nil => rfl
  | cons t ts ih =>
    by_cases hti : t.id = i
    · rw [toggleDoneItems, if_pos hti, List.map_cons, if_pos hti,
        map_if_id_eq_self i _ ts (fun u hu => hti ▸ nodup_head_not_found h u hu)]
    · rw [toggleDoneItems, if_neg hti, List.map_cons, if_neg hti,
        ih ((List.nodup_cons.mp (List.map_cons Task.id t ts ▸ h)).2)]

theorem editTaskItems_of_empty (i d : String) (l : List Task)
    (h : jsTrim d = "") : editTaskItems i d l = l := by
  induction l with
  | nil => rfl
  | cons t ts ih =>
    by_cases hti : t.id = i
    · simp [editTaskItems, hti, h]
    · simp [editTaskItems, hti, ih]

theorem editTaskItems_of_not_found (i d : String) (l : List Task)
    (h : ∀ t ∈ l, t.id ≠ i) : editTaskItems i d l = l := by
  induction l with
  | nil => rfl
  | cons t ts ih =>
    rw [editTaskItems, if_neg (h t (List.mem_cons_self t ts)),
      ih (fun u hu => h u (List.mem_cons_of_mem t hu))]

theorem editTaskItems_map_id_isDone (i d : String) (l : List Task) :
    (editTaskItems i d l).map (fun t => (t.id, t.isDone))
      = l.map (fun t => (t.id, t.isDone)) := by
  induction l with
  | nil => rfl
  | cons t ts ih =>
    by_cases hti : t.id = i
    · by_cases hd : jsTrim d = ""
      · simp [editTaskItems, hti, hd]
      · simp [editTaskItems, hti, hd]
    · simp [editTaskItems, hti, ih]

theorem editTaskItems_map_id (i d : String) (l : List Task) :
    (editTaskItems i d l).map Task.id = l.map Task.id := by
  induction l with
  | nil => rfl
  | cons t ts ih =>
    by_cases hti : t.id = i
    · by_cases hd : jsTrim d = ""
      · simp [editTaskItems, hti, hd]
      · simp [editTaskItems, hti, hd]
    · simp [editTaskItems, hti, ih]

theorem editTaskItems_eq_map (i d : String) (l : List Task)
    (h : (l.map Task.id).Nodup) (hd : jsTrim d ≠ "") :
    editTaskItems i d l
      = l.map (fun t => if t.id = i then { t with description := jsTrim d } else t) := by
  induction l with
  | nil => rfl
  | cons t ts ih =>
    by_cases hti : t.id = i
    · rw [editTaskItems, if_pos hti, if_pos hd, List.map_cons, if_pos hti,
        map_if_id_eq_self i _ ts (fun u hu => hti ▸ nodup_head_not_found h u hu)]
    · rw [editTaskItems, if_neg hti, List.map_cons, if_neg hti,
        ih ((List.nodup_cons.mp (List.map_cons Task.id t ts ▸ h)).2)]

/-! ### Claim theorems -/

/-- Claim C1, counterexample: dispatching `addTask` with an empty description
is not a no-op on the store — the reducer (source lines 25-27) prepends the
prepared payload unconditionally, so the empty state gains a task whose
description is the empty string. -/
theorem addTask_empty_dispatch_not_noop :
    addTask { items := [], filter := "all" } "id1" ""
      ≠ { items := [], filter := "all" } ∧
    (addTask { items := [], filter := "all" } "id1" "").items
      = [{ id := "id1", description := "", isDone := false }] :=
  ⟨by decide, by decide⟩

/-- Claim C1, amended: dispatching `addTask` with a trimmed-empty description
prepends a task whose description is the empty string (the reducer performs no
emptiness check); the no-op guard lives in the `AddTask` submit handler, which
skips the dispatch when the trimmed text is empty, so submitting such text
leaves the state (items and filter) unchanged. -/
theorem addTask_empty_guarded_by_submit (s : TasksState) (freshId text : String)
    (h : jsTrim text = "") :
    addTask s freshId text
      = { s with items :=
            { id := freshId, description := "", isDone := false } :: s.items } ∧
    submitAddTask s text freshId = s := by
  constructor
  · simp [addTask, mkTask, h]
  · simp [submitAddTask, h]

/-- Witness for `addTask_empty_guarded_by_submit` at a blank description. -/
theorem addTask_empty_guarded_by_submit_witness :
    addTask { items := [], filter := "all" } "idA" "   "
      = { items := [{ id := "idA", description := "", isDone := false }],
          filter := "all" } ∧
    submitAddTask { items := [], filter := "all" } "   " "idA"
      = { items := [], filter := "all" } :=
  addTask_empty_guarded_by_submit { items := [], filter := "all" } "idA" "   "
    (by decide)

/-- Claim C2: with a fresh id (the `nanoid()` guarantee, taken as a
hypothesis) and a description whose trimmed form is non-empty, `addTask`
prepends exactly one new task carrying the trimmed description and
`isDone = false`, keeps every pre-existing task and the filter unchanged, and
the new id differs from every existing id. -/
theorem addTask_nonempty_spec (s : TasksState) (freshId d : String)
    (hfresh : freshId ∉ s.items.map Task.id) (_hd : jsTrim d ≠ "") :
    (addTask s freshId d).items
      = { id := freshId, description := jsTrim d, isDone := false } :: s.items ∧
    (addTask s freshId d).items.length = s.items.length + 1 ∧
    (addTask s freshId d).filter = s.filter ∧
    ∀ t ∈ s.items, t.id ≠ freshId := by
  refine ⟨rfl, by simp [addTask], rfl, fun t ht he => ?_⟩
  exact hfresh (he ▸ List.mem_map_of_mem Task.id ht)

/-- Witness for `addTask_nonempty_spec` on the demo state. -/
theorem addTask_nonempty_spec_witness :
    (addTask demoState "c" " walk dog ").items
      = [{ id := "c", description := "walk dog", isDone := false },
         { id := "a", description := "buy milk", isDone := false },
         { id := "b", description := "call bob", isDone := true }] ∧
    (addTask demoState "c" " walk dog ").filter = "all" := by
  have h := addTask_nonempty_spec demoState "c" " walk dog "
    (by decide) (by decide)
  exact ⟨by rw [h.1]; decide, h.2.2.1⟩

/-- Claim C3, counterexample: `setFilter` stores its payload without
validation (source line 48), so it breaks the filter half of the invariant
when dispatched with a value outside the three-element enumeration, even from
a state satisfying the invariant. -/
theorem setFilter_breaks_invariant :
    Invariant { items := [], filter := "all" } ∧
    ¬ Invariant (setFilter { items := [], filter := "all" } "bogus") :=
  ⟨by decide, by decide⟩

/-- Claim C3, amended: every reducer preserves the no-duplicate-ids half of
the invariant (`addTask` under the freshness guarantee of `nanoid()`), and
every reducer except `setFilter` preserves the filter-validity half;
`setFilter` preserves it exactly when its payload is one of the three
enumerated values — the reducer itself performs no validation. -/
theorem reducers_preserve_invariant (s : TasksState) (i d v freshId : String)
    (hs : Invariant s) :
    (freshId ∉ s.items.map Task.id → Invariant (addTask s freshId d)) ∧
    Invariant (toggleDone s i) ∧
    Invariant (editTask s i d) ∧
    Invariant (clearAll s) ∧
    (validFilter v → Invariant (setFilter s v)) := by
  obtain ⟨hnodup, hfilter⟩ := hs
  refine ⟨fun hfresh => ⟨?_, hfilter⟩, ⟨?_, hfilter⟩, ⟨?_, hfilter⟩,
    ⟨by simp [clearAll], hfilter⟩, fun hv => ⟨hnodup, hv⟩⟩
  · simpa [addTask, mkTask, List.nodup_cons, hfresh] using hnodup
  · show ((toggleDoneItems i s.items).map Task.id).Nodup
    rw [toggleDoneItems_map_id]; exact hnodup
  · show ((editTaskItems i d s.items).map Task.id).Nodup
    rw [editTaskItems_map_id]; exact hnodup

/-- Witness for `reducers_preserve_invariant` on the demo state. -/
theorem reducers_preserve_invariant_witness :
    Invariant (addTask demoState "c" "walk dog") ∧
    Invariant (toggleDone demoState "a") ∧
    Invariant (editTask demoState "a" "new") ∧
    Invariant (clearAll demoState) ∧
    Invariant (setFilter demoState "done") :=
  have h := reducers_preserve_invariant demoState "a" "new" "done" "c"
    (by decide)
  ⟨h.1 (by decide), h.2.1, h.2.2.1, h.2.2.2.1, h.2.2.2.2 (by decide)⟩

/-- Claim C4: `toggleDone` is a no-op when no task carries the requested id;
it is an involution (toggling the same id twice restores the original state);
it never changes the filter nor the id/description data of any task; and,
when ids are pairwise distinct, it exactly flips `isDone` on the matching
task and leaves every other task untouched. -/
theorem toggleDone_spec (s : TasksState) (i : String) :
    ((∀ t ∈ s.items, t.id ≠ i) → toggleDone s i = s) ∧
    toggleDone (toggleDone s i) i = s ∧
    (toggleDone s i).filter = s.filter ∧
    ((toggleDone s i).items.map (fun t => (t.id, t.description))
      = s.items.map (fun t => (t.id, t.description))) ∧
    ((s.items.map Task.id).Nodup →
      (toggleDone s i).items
        = s.items.map (fun t =>
            if t.id = i then { t with isDone := !t.isDone } else t)) := by
  obtain ⟨items, filter⟩ := s
  refine ⟨fun h => ?_, ?_, rfl, toggleDoneItems_map_id_description i items,
    fun h => toggleDoneItems_eq_map i items h⟩
  · simp [toggleDone, toggleDoneItems_of_not_found i items h]
  · simp [toggleDone, toggleDoneItems_involutive i items]

/-- Witness for `toggleDone_spec` on the demo state: a missing id is a no-op,
a double toggle restores the state, and a single toggle flips exactly the
matching task. -/
theorem toggleDone_spec_witness :
    toggleDone demoState "zz" = demoState ∧
    toggleDone (toggleDone demoState "a") "a" = demoState ∧
    (toggleDone demoState "a").items
      = demoState.items.map (fun t =>
          if t.id = "a" then { t with isDone := !t.isDone } else t) :=
  ⟨(toggleDone_spec demoState "zz").1 (by decide),
   (toggleDone_spec demoState "a").2.1,
   (toggleDone_spec demoState "a").2.2.2.2 (by decide)⟩

/-- Claim C5: `editTask` is a no-op when the trimmed description is empty or
when no task carries the requested id; it never changes the filter nor the
id/isDone data of any task; and, when ids are pairwise distinct and the
trimmed description is non-empty, it exactly replaces the description of the
matching task with the trimmed text and leaves every other task untouched. -/
theorem editTask_spec (s : TasksState) (i d : String) :
    (jsTrim d = "" → editTask s i d = s) ∧
    ((∀ t ∈ s.items, t.id ≠ i) → editTask s i d = s) ∧
    (editTask s i d).filter = s.filter ∧
    ((editTask s i d).items.map (fun t => (t.id, t.isDone))
      = s.items.map (fun t => (t.id, t.isDone))) ∧
    ((s.items.map Task.id).Nodup → jsTrim d ≠ "" →
      (editTask s i d).items
        = s.items.map (fun t =>
            if t.id = i then { t with description := jsTrim d } else t)) := by
  obtain ⟨items, filter⟩ := s
  refine ⟨fun h => ?_, fun h => ?_, rfl, editTaskItems_map_id_isDone i d items,
    fun h hd => editTaskItems_eq_map i d items h hd⟩
  · simp [editTask, editTaskItems_of_empty i d items h]
  · simp [editTask, editTaskItems_of_not_found i d items h]

/-- Witness for `editTask_spec` on the demo state: an empty description and a
missing id are no-ops, and editing task `a` to `"new"` replaces exactly its
description. -/
theorem editTask_spec_witness :
    editTask demoState "a" "" = demoState ∧
    editTask demoState "zz" "x" = demoState ∧
    (editTask demoState "a" "new").items
      = [{ id := "a", description := "new", isDone := false },
         { id := "b", description := "call bob", isDone := true }] :=
  ⟨(editTask_spec demoState "a" "").1 (by decide),
   (editTask_spec demoState "zz" "x").2.1 (by decide),
   by rw [(editTask_spec demoState "a" "new").2.2.2.2 (by decide) (by decide)]
      decide⟩

/-- Claim C6: `clearAll` empties the items list and leaves the filter exactly
as it was. -/
theorem clearAll_spec (s : TasksState) :
    (clearAll s).items = [] ∧ (clearAll s).filter = s.filter :=
  ⟨rfl, rfl⟩

/-- Claim C7: the derived view of `ListTask` is a pure function of
`(items, filter)` returning the items themselves for filter `all`, the done
subsequence for filter `done`, and the not-done subsequence for filter
`not`. -/
theorem filteredItems_spec (items : List Task) :
    filteredItems items "all" = items ∧
    filteredItems items "done" = items.filter (fun t => t.isDone) ∧
    filteredItems items "not" = items.filter (fun t => !t.isDone) := by
  refine ⟨?_, ?_, ?_⟩
  · rw [filteredItems, if_neg (by decide), if_neg (by decide)]
  · rw [filteredItems, if_pos rfl]
  · rw [filteredItems, if_neg (by decide), if_pos rfl]

/-- Claim C8: when the storage read throws, when the stored value is absent
(or the empty string, which the `raw ?` test also treats as absent), or when
`JSON.parse` fails, the rehydrated initial state is the empty default
`items = []`, `filter = "all"`. -/
theorem startup_fallback (parse : String → Option PersistedBlob) (raw : String)
    (hfail : parse raw = none) :
    initialStateFrom (persistedFrom .failure parse)
      = { items := [], filter := "all" } ∧
    initialStateFrom (persistedFrom .missing parse)
      = { items := [], filter := "all" } ∧
    initialStateFrom (persistedFrom (.stored raw) parse)
      = { items := [], filter := "all" } := by
  refine ⟨rfl, rfl, ?_⟩
  by_cases h : raw = ""
  · simp [persistedFrom, h, initialStateFrom]
  · simp [persistedFrom, h, hfail, initialStateFrom]

/-- Witness for `startup_fallback`: a parser that rejects every input (the
behaviour of `JSON.parse` on malformed text) yields the default state both on
a thrown read and on a stored malformed string. -/
theorem startup_fallback_witness :
    initialStateFrom (persistedFrom .failure (fun _ => none))
      = { items := [], filter := "all" } ∧
    initialStateFrom (persistedFrom (.stored "malformed") (fun _ => none))
      = { items := [], filter := "all" } :=
  have h := startup_fallback (fun _ => none) "malformed" rfl
  ⟨h.1, h.2.2⟩

/-- Claim C9: writing the store state through `JSON.stringify` and reading it
back through `JSON.parse` plus the `initialState` extraction reproduces the
state exactly, for every state whose filter is non-empty — in particular for
every state of the data model, whose filter is one of the three enumerated
(hence non-empty) values. -/
theorem persist_roundtrip (s : TasksState) (h : validFilter s.filter) :
    initialStateFrom (some (serializeState s)) = s := by
  have hne : s.filter ≠ "" := by
    rcases h with h | h | h <;> (rw [h]; decide)
  obtain ⟨items, filter⟩ := s
  simp [initialStateFrom, serializeState] at hne ⊢
  simp [hne]

/-- Witness for `persist_roundtrip` on the demo state. -/
theorem persist_roundtrip_witness :
    initialStateFrom (some (serializeState demoState)) = demoState :=
  persist_roundtrip demoState (by decide)

/-- Claim C10, counterexample: the program does not fall back per field.  A
parsed blob `tasks: (filter: "done")` with no `items` field is installed in
the store verbatim through `preloadedState` — the slice starts with the raw
object whose `items` is undefined — and not as the per-field-completed state
`items = [], filter = "done"` that the claim predicts. -/
theorem rehydrate_not_per_field :
    startupTasksState
        (some { tasks := some { items := none, filter := some "done" } })
      = Sum.inl { items := none, filter := some "done" } ∧
    startupTasksState
        (some { tasks := some { items := none, filter := some "done" } })
      ≠ Sum.inr { items := [], filter := "done" } :=
  ⟨rfl, by decide⟩

/-- Claim C10, amended: rehydration does not fall back per field.  Whenever
the parsed blob carries a defined `tasks` object, `preloadedState` hands it
to the store verbatim — a blob with `tasks.filter` but no `tasks.items`
starts the store with `items` undefined rather than `[]`, and a blob with
items but no `tasks.filter` keeps `filter` undefined rather than `"all"`.
The per-field `||` fallbacks of the slice `initialState` execute only when
the blob or its `tasks` key is absent, and then both fields fall back
together to the empty default `items = [], filter = "all"`. -/
theorem startup_preloaded_passthrough (persisted : Option PersistedBlob)
    (t : PersistedTasks) :
    (persisted.bind PersistedBlob.tasks = some t →
      startupTasksState persisted = Sum.inl t) ∧
    (persisted.bind PersistedBlob.tasks = none →
      startupTasksState persisted
        = Sum.inr { items := [], filter := "all" }) := by
  constructor
  · intro h; simp [startupTasksState, h]
  · intro h; simp [startupTasksState, h, initialStateFrom]

/-- Witness for `startup_preloaded_passthrough`: a partial blob carrying only
a filter is installed verbatim (items undefined), and a blob without a
`tasks` key yields the empty default state. -/
theorem startup_preloaded_passthrough_witness :
    startupTasksState
        (some { tasks := some { items := none, filter := some "done" } })
      = Sum.inl { items := none, filter := some "done" } ∧
    startupTasksState (some { tasks := none })
      = Sum.inr { items := [], filter := "all" } :=
  ⟨(startup_preloaded_passthrough
      (some { tasks := some { items := none, filter := some "done" } })
      { items := none, filter := some "done" }).1 rfl,
   (startup_preloaded_passthrough (some { tasks := none })
      { items := none, filter := some "done" }).2 rfl⟩

end ReduxCheckpoint
